/-
Verification of the Survivor options-selling strategy engine and its order
ledger, shallowly embedded from the Python sources
(src/strategy/survivor.py, src/orders.py, src/brokers/zerodha.py).

Prices, gaps and thresholds are Python floats in the source; they are
embedded as exact rationals (ℚ).  The one genuinely numeric operation the
source performs on them, the Python round(x, 0) operation (round half to even), is
embedded explicitly as pyRound; Python int(x) truncation toward zero is
pyTrunc.  ISO-8601 timestamp strings, which the source compares only
chronologically (via datetime.fromisoformat), are embedded as naturals.
-/
import Mathlib

/-- Python round(x, 0): round half to even, result is an integer-valued
float, embedded as an integer-valued rational. -/
def pyRound (q : ℚ) : ℚ :=
  let f : ℤ := ⌊q⌋
  let r : ℚ := q - (f : ℚ)
  if r < 1/2 then (f : ℚ)
  else if 1/2 < r then ((f + 1 : ℤ) : ℚ)
  else if f % 2 = 0 then (f : ℚ) else ((f + 1 : ℤ) : ℚ)

/-- Python int(x) on a float: truncation toward zero. -/
def pyTrunc (q : ℚ) : ℤ :=
  if 0 ≤ q then ⌊q⌋ else ⌈q⌉

/-- One order record, as stored by OrderTracker (src/orders.py).  The
strategy always supplies every field, including a timestamp, so the
"add timestamp if absent" branch of add_order is always a no-op here. -/
structure Order where
  order_id : String
  symbol : String
  transaction_type : String
  quantity : ℤ
  price : Option ℚ
  timestamp : ℕ
deriving DecidableEq

/-- The OrderTracker state (src/orders.py).  all_orders mirrors the
insertion-ordered Python dict _all_orders; file is the content of the JSON file (the persisted mapping); saves counts _save_orders calls. -/
structure TrackerState where
  all_orders : List (String × Order)
  current : Option Order
  completed : List String
  summary : List (String × ℕ)
  file : List (String × Order)
  saves : ℕ
deriving DecidableEq

/-- Python dict upsert: an existing key keeps its position and gets the
new value; a new key is appended at the end. -/
def dict_insert (l : List (String × Order)) (k : String) (v : Order) :
    List (String × Order) :=
  if l.any (fun p => p.1 == k) then
    l.map (fun p => if p.1 == k then (k, v) else p)
  else l ++ [(k, v)]

/-- The per-transaction-type completed counter update in complete_order:
summary[tt] = 1 if absent, else summary[tt] += 1. -/
def bump_summary (l : List (String × ℕ)) (k : String) : List (String × ℕ) :=
  if l.any (fun p => p.1 == k) then
    l.map (fun p => if p.1 == k then (p.1, p.2 + 1) else p)
  else l ++ [(k, 1)]

/-- OrderTracker._save_orders: synchronous full-file rewrite of the whole
mapping. -/
def save_orders (st : TrackerState) : TrackerState :=
  { st with file := st.all_orders, saves := st.saves + 1 }

/-- OrderTracker.add_order: rejects a falsy order_id, sets _current_order
to the new details, upserts the mapping, then persists via _save_orders. -/
def add_order (st : TrackerState) (od : Order) : TrackerState :=
  if od.order_id = "" then st
  else
    save_orders
      { st with
        current := some od
        all_orders := dict_insert st.all_orders od.order_id od }

/-- OrderTracker.complete_order: unknown id fails; a known id is appended
to the completed list and counted once, idempotently; no persistence. -/
def complete_order (st : TrackerState) (order_id : String) :
    Bool × TrackerState :=
  match st.all_orders.lookup order_id with
  | some od =>
      if st.completed.contains order_id then (true, st)
      else
        (true,
          { st with
            completed := st.completed ++ [order_id]
            summary := bump_summary st.summary od.transaction_type })
  | none => (false, st)

/-- The loop body of the current-order scan in OrderTracker._load_orders:
keep the first entry whose timestamp is strictly greater than the best
seen so far. -/
def load_current_step (acc : Option Order) (p : String × Order) : Option Order :=
  match acc with
  | none => some p.2
  | some b => if b.timestamp < p.2.timestamp then some p.2 else some b

/-- The current-order scan of OrderTracker._load_orders. -/
def load_current (l : List (String × Order)) : Option Order :=
  l.foldl load_current_step none

/-- OrderTracker._load_orders on an existing, well-formed file: the
mapping is read back as persisted and currentOrder is recomputed by the
maximum-timestamp scan. -/
def load_orders (file : List (String × Order)) :
    List (String × Order) × Option Order :=
  (file, load_current file)

/-- Count looked up in the per-type summary (0 when the type is absent). -/
def summary_count (l : List (String × ℕ)) (k : String) : ℕ :=
  match l.lookup k with
  | some n => n
  | none => 0

/-- A fresh OrderTracker over an absent file. -/
def tracker0 : TrackerState :=
  { all_orders := [], current := none, completed := [], summary := [],
    file := [], saves := 0 }

/-- One row of the instruments DataFrame as used by the strategy
(src/strategy/survivor.py, _find_nifty_symbol_from_gap). -/
structure Instrument where
  tradingsymbol : String
  strike : ℚ
  instrument_type : String
  segment : String
deriving DecidableEq

/-- Configuration attributes of the strategy (strat_var_*) together with
the per-session derived attributes instruments and strike_difference. -/
structure Config where
  pe_gap : ℚ
  ce_gap : ℚ
  pe_quantity : ℤ
  ce_quantity : ℤ
  pe_reset_gap : ℚ
  ce_reset_gap : ℚ
  pe_symbol_gap : ℚ
  ce_symbol_gap : ℚ
  sell_multiplier_threshold : ℚ
  min_price_to_sell : ℚ
  trans_type : String
  exchange : String
  strike_difference : ℚ
  instruments : List Instrument

/-- The external broker effects a tick handler consumes: quote lookups
(keyed by "EXCHANGE:symbol"), the per-symbol outcome of each
kite.place_order attempt (error = exception raised, ok "" = falsy id,
ok s with s nonempty = success), and the wall clock for add_order. -/
structure Env where
  quote : String → ℚ
  placeAttempt : String → ℕ → Except Unit String
  now : ℕ

/-- The mutable per-strategy state: the two reference prices, the two
reset flags (0/1 integers in the source), and the shared OrderTracker. -/
structure State where
  nifty_pe_last_value : ℚ
  nifty_ce_last_value : ℚ
  pe_reset_gap_flag : ℕ
  ce_reset_gap_flag : ℕ
  tracker : TrackerState
deriving DecidableEq

/-- Outcome of a (partial) tick: normal return, an uncaught exception
propagating out with the mutations made so far, or a non-terminating
selection loop (fuel exhausted in the embedding). -/
inductive Res where
  | ok (s : State)
  | exn (s : State)
  | spin (s : State)
deriving DecidableEq

/-- The strategy state carried by any outcome. -/
def stateOf : Res → State
  | .ok s => s
  | .exn s => s
  | .spin s => s

/-- SurvivorStrategy._check_sell_multiplier_breach. -/
def check_sell_multiplier_breach (cfg : Config) (sell_multiplier : ℤ) : Bool :=
  decide (cfg.sell_multiplier_threshold < (sell_multiplier : ℚ))

/-- The trigger/sizing part of _handle_pe_trade (lines 120-131): the
(multiplier, total_quantity) decision, or none when no trade fires. -/
def pe_decision (cfg : Config) (ref price : ℚ) : Option (ℤ × ℤ) :=
  if price ≤ ref then none
  else
    let price_diff := pyRound (price - ref)
    if cfg.pe_gap < price_diff then
      let sell_multiplier := pyTrunc (price_diff / cfg.pe_gap)
      if check_sell_multiplier_breach cfg sell_multiplier then none
      else some (sell_multiplier, sell_multiplier * cfg.pe_quantity)
    else none

/-- The trigger/sizing part of _handle_ce_trade (lines 164-175). -/
def ce_decision (cfg : Config) (ref price : ℚ) : Option (ℤ × ℤ) :=
  if ref ≤ price then none
  else
    let price_diff := pyRound (ref - price)
    if cfg.ce_gap < price_diff then
      let sell_multiplier := pyTrunc (price_diff / cfg.ce_gap)
      if check_sell_multiplier_breach cfg sell_multiplier then none
      else some (sell_multiplier, sell_multiplier * cfg.ce_quantity)
    else none

/-- iloc[0] of the frame sorted ascending by |strike - target|: the first
row attaining the minimal distance (ties in pandas sort order are not
observable by any claim). -/
def argmin_strike_diff (target : ℚ) (l : List Instrument) : Option Instrument :=
  l.foldl
    (fun acc i =>
      match acc with
      | none => some i
      | some b => if |i.strike - target| < |b.strike - target| then some i else some b)
    none

/-- SurvivorStrategy._find_nifty_symbol_from_gap.  An empty type/segment
subset returns ok none; a subset with no row within strike_difference/2
of the target strike makes .iloc[0] raise IndexError, embedded as
.error (). -/
def find_nifty_symbol_from_gap (cfg : Config) (option_type : String)
    (ltp gap : ℚ) : Except Unit (Option Instrument) :=
  let target_strike := ltp + (if option_type = "PE" then -gap else gap)
  let df := cfg.instruments.filter
    (fun i => i.instrument_type == option_type && i.segment == "NFO-OPT")
  if df.isEmpty then .ok none
  else
    let tolerance := cfg.strike_difference / 2
    let within := df.filter (fun i => decide (|i.strike - target_strike| ≤ tolerance))
    match argmin_strike_diff target_strike within with
    | none => .error ()
    | some best => .ok (some best)

/-- The 5-attempt retry loop of ZerodhaBroker.place_order, i attempts
already made, k remaining: a falsy id retries, a nonempty id returns
immediately, an exception (or exhaustion) yields -1, embedded as none. -/
def place_order_go (attempt : ℕ → Except Unit String) (i : ℕ) :
    ℕ → Option String
  | 0 => none
  | k + 1 =>
      match attempt i with
      | .error _ => none
      | .ok oid => if oid = "" then place_order_go attempt (i + 1) k else some oid

/-- ZerodhaBroker.place_order: up to 5 attempts. -/
def place_order (attempt : ℕ → Except Unit String) : Option String :=
  place_order_go attempt 0 5

/-- SurvivorStrategy._place_order: on broker failure (-1) nothing is
recorded; on success the order snapshot is recorded in the tracker. -/
def strat_place_order (cfg : Config) (env : Env) (s : State)
    (symbol : String) (quantity : ℤ) : State :=
  match place_order (env.placeAttempt symbol) with
  | none => s
  | some oid =>
      { s with
        tracker := add_order s.tracker
          { order_id := oid, symbol := symbol,
            transaction_type := cfg.trans_type, quantity := quantity,
            price := none, timestamp := env.now } }

/-- The while True selection/pricing loop of _handle_pe_trade
(lines 133-151), with explicit fuel standing for non-termination. -/
def pe_loop (cfg : Config) (env : Env) (s : State) (price : ℚ)
    (total_quantity : ℤ) : ℚ → ℕ → Res
  | _, 0 => .spin s
  | temp_gap, fuel + 1 =>
      match find_nifty_symbol_from_gap cfg "PE" price temp_gap with
      | .error _ => .exn s
      | .ok none => .ok s
      | .ok (some instrument) =>
          let symbol_code := cfg.exchange ++ ":" ++ instrument.tradingsymbol
          if env.quote symbol_code < cfg.min_price_to_sell then
            pe_loop cfg env s price total_quantity
              (temp_gap - cfg.strike_difference) fuel
          else
            let s' := strat_place_order cfg env s instrument.tradingsymbol
              total_quantity
            .ok { s' with pe_reset_gap_flag := 1 }

/-- The while True selection/pricing loop of _handle_ce_trade
(lines 177-195). -/
def ce_loop (cfg : Config) (env : Env) (s : State) (price : ℚ)
    (total_quantity : ℤ) : ℚ → ℕ → Res
  | _, 0 => .spin s
  | temp_gap, fuel + 1 =>
      match find_nifty_symbol_from_gap cfg "CE" price temp_gap with
      | .error _ => .exn s
      | .ok none => .ok s
      | .ok (some instrument) =>
          let symbol_code := cfg.exchange ++ ":" ++ instrument.tradingsymbol
          if env.quote symbol_code < cfg.min_price_to_sell then
            ce_loop cfg env s price total_quantity
              (temp_gap - cfg.strike_difference) fuel
          else
            let s' := strat_place_order cfg env s instrument.tradingsymbol
              total_quantity
            .ok { s' with ce_reset_gap_flag := 1 }

/-- SurvivorStrategy._handle_pe_trade: the reference price advances by
pe_gap * sell_multiplier before the selection loop runs. -/
def handle_pe_trade (cfg : Config) (env : Env) (s : State) (price : ℚ)
    (fuel : ℕ) : Res :=
  if price ≤ s.nifty_pe_last_value then .ok s
  else
    let price_diff := pyRound (price - s.nifty_pe_last_value)
    if cfg.pe_gap < price_diff then
      let sell_multiplier := pyTrunc (price_diff / cfg.pe_gap)
      if check_sell_multiplier_breach cfg sell_multiplier then .ok s
      else
        let s' := { s with nifty_pe_last_value :=
          s.nifty_pe_last_value + cfg.pe_gap * (sell_multiplier : ℚ) }
        pe_loop cfg env s' price (sell_multiplier * cfg.pe_quantity)
          cfg.pe_symbol_gap fuel
    else .ok s

/-- SurvivorStrategy._handle_ce_trade: the reference price retreats by
ce_gap * sell_multiplier before the selection loop runs. -/
def handle_ce_trade (cfg : Config) (env : Env) (s : State) (price : ℚ)
    (fuel : ℕ) : Res :=
  if s.nifty_ce_last_value ≤ price then .ok s
  else
    let price_diff := pyRound (s.nifty_ce_last_value - price)
    if cfg.ce_gap < price_diff then
      let sell_multiplier := pyTrunc (price_diff / cfg.ce_gap)
      if check_sell_multiplier_breach cfg sell_multiplier then .ok s
      else
        let s' := { s with nifty_ce_last_value :=
          s.nifty_ce_last_value - cfg.ce_gap * (sell_multiplier : ℚ) }
        ce_loop cfg env s' price (sell_multiplier * cfg.ce_quantity)
          cfg.ce_symbol_gap fuel
    else .ok s

/-- SurvivorStrategy._reset_reference_values: PE branch first, then the
CE branch over the possibly-updated state. -/
def reset_reference_values (cfg : Config) (s : State) (price : ℚ) : State :=
  let s1 :=
    if s.pe_reset_gap_flag ≠ 0 ∧ cfg.pe_reset_gap < s.nifty_pe_last_value - price
    then { s with nifty_pe_last_value := price + cfg.pe_reset_gap }
    else s
  if s1.ce_reset_gap_flag ≠ 0 ∧ cfg.ce_reset_gap < price - s1.nifty_ce_last_value
  then { s1 with nifty_ce_last_value := price - cfg.ce_reset_gap }
  else s1

/-- SurvivorStrategy.on_ticks_update: PE handling, CE handling, then the
reset step; an exception (or hang) in an earlier step aborts the rest of
the tick. -/
def on_ticks_update (cfg : Config) (env : Env) (s : State) (price : ℚ)
    (fuel : ℕ) : Res :=
  match handle_pe_trade cfg env s price fuel with
  | .exn s1 => .exn s1
  | .spin s1 => .spin s1
  | .ok s1 =>
      match handle_ce_trade cfg env s1 price fuel with
      | .exn s2 => .exn s2
      | .spin s2 => .spin s2
      | .ok s2 => .ok (reset_reference_values cfg s2 price)

/-- Worked scenario configuration from the spec: gap 10, per-unit quantity
50, sell-multiplier threshold 5 (other fields inert for the scenario). -/
def cfgS : Config :=
  { pe_gap := 10, ce_gap := 10, pe_quantity := 50, ce_quantity := 50,
    pe_reset_gap := 5, ce_reset_gap := 5, pe_symbol_gap := 25,
    ce_symbol_gap := 25, sell_multiplier_threshold := 5,
    min_price_to_sell := 1, trans_type := "SELL", exchange := "NFO",
    strike_difference := 100, instruments := [] }

/-- The suppression scenario configuration: threshold 1. -/
def cfg3 : Config :=
  { cfgS with sell_multiplier_threshold := 1 }

/-- A PE contract whose strike is far from every target the tests use. -/
def instFar : Instrument :=
  { tradingsymbol := "NIFTY25JAN19500PE", strike := 19500,
    instrument_type := "PE", segment := "NFO-OPT" }

/-- A PE contract at strike 100, within tolerance of target 100. -/
def instNear : Instrument :=
  { tradingsymbol := "NIFTY25JAN100PE", strike := 100,
    instrument_type := "PE", segment := "NFO-OPT" }

/-- Catalog holding only the far-away PE contract. -/
def cfg4 : Config := { cfgS with instruments := [instFar] }

/-- Catalog holding only the near PE contract. -/
def cfg7 : Config := { cfgS with instruments := [instNear] }

/-- An environment whose broker returns a falsy order id on every
placement attempt and quotes every symbol at 50. -/
def envFail : Env :=
  { quote := fun _ => 50, placeAttempt := fun _ _ => .ok "", now := 0 }

/-- An environment whose broker succeeds immediately with id "OID1". -/
def envOk : Env :=
  { quote := fun _ => 50, placeAttempt := fun _ _ => .ok "OID1", now := 7 }

/-- Strategy state with both references at 100, PE flag clear, CE flag
already armed. -/
def s5 : State :=
  { nifty_pe_last_value := 100, nifty_ce_last_value := 100,
    pe_reset_gap_flag := 0, ce_reset_gap_flag := 1, tracker := tracker0 }

/-- Strategy state with both references at 100 and both flags clear. -/
def s7 : State :=
  { nifty_pe_last_value := 100, nifty_ce_last_value := 100,
    pe_reset_gap_flag := 0, ce_reset_gap_flag := 0, tracker := tracker0 }

/-- Ledger fixture: order "1" at timestamp 5. -/
def o1 : Order :=
  { order_id := "1", symbol := "SYMA", transaction_type := "SELL",
    quantity := 50, price := none, timestamp := 5 }

/-- Ledger fixture: order "2" at timestamp 3, added after o1. -/
def o2 : Order :=
  { order_id := "2", symbol := "SYMB", transaction_type := "SELL",
    quantity := 50, price := none, timestamp := 3 }

/-- A CE contract at strike 150, within tolerance of target 150. -/
def instNearCE : Instrument :=
  { tradingsymbol := "NIFTY25JAN150CE", strike := 150,
    instrument_type := "CE", segment := "NFO-OPT" }

/-- Catalog holding only the near CE contract. -/
def cfg7ce : Config := { cfgS with instruments := [instNearCE] }

lemma place_order_go_allFail (i k : ℕ) :
    place_order_go (fun _ => .ok "") i k = none := by
  induction k generalizing i with
  | zero => rfl
  | succ k ih => simp [place_order_go, ih]

lemma place_order_go_empty (attempt : ℕ → Except Unit String) :
    ∀ (k i : ℕ), (∀ j, j < k → attempt (i + j) = .ok "") →
    place_order_go attempt i k = none := by
  intro k
  induction k with
  | zero => intro i _; rfl
  | succ k ih =>
      intro i h
      have h0 : attempt i = .ok "" := by simpa using h 0 (Nat.succ_pos k)
      simp only [place_order_go, h0, if_pos rfl]
      exact ih (i + 1) (fun j hj => by
        have := h (1 + j) (by omega)
        simpa [Nat.add_assoc] using this)

lemma place_order_go_firstHit (attempt : ℕ → Except Unit String) (oid : String)
    (hne : oid ≠ "") :
    ∀ (d i k : ℕ), d < k → (∀ j, j < d → attempt (i + j) = .ok "") →
    attempt (i + d) = .ok oid →
    place_order_go attempt i k = some oid := by
  intro d
  induction d with
  | zero =>
      intro i k hk _ hhit
      obtain ⟨k', rfl⟩ : ∃ k', k = k' + 1 := ⟨k - 1, by omega⟩
      simp only [Nat.add_zero] at hhit
      simp [place_order_go, hhit, hne]
  | succ d ih =>
      intro i k hk hmiss hhit
      obtain ⟨k', rfl⟩ : ∃ k', k = k' + 1 := ⟨k - 1, by omega⟩
      have h0 : attempt i = .ok "" := by simpa using hmiss 0 (Nat.succ_pos d)
      simp only [place_order_go, h0, if_pos rfl]
      exact ih (i + 1) k' (by omega)
        (fun j hj => by
          have := hmiss (1 + j) (by omega)
          simpa [Nat.add_assoc] using this)
        (by
          have : i + 1 + d = i + (d + 1) := by omega
          rw [this]; exact hhit)

lemma strat_place_order_proj (cfg : Config) (env : Env) (s : State)
    (symbol : String) (quantity : ℤ) :
    (strat_place_order cfg env s symbol quantity).nifty_pe_last_value =
      s.nifty_pe_last_value ∧
    (strat_place_order cfg env s symbol quantity).nifty_ce_last_value =
      s.nifty_ce_last_value ∧
    (strat_place_order cfg env s symbol quantity).pe_reset_gap_flag =
      s.pe_reset_gap_flag ∧
    (strat_place_order cfg env s symbol quantity).ce_reset_gap_flag =
      s.ce_reset_gap_flag := by
  unfold strat_place_order
  cases place_order (env.placeAttempt symbol) <;> exact ⟨rfl, rfl, rfl, rfl⟩

lemma strat_place_order_fail (cfg : Config) (env : Env) (s : State)
    (symbol : String) (quantity : ℤ)
    (h : place_order (env.placeAttempt symbol) = none) :
    strat_place_order cfg env s symbol quantity = s := by
  simp [strat_place_order, h]

lemma pe_loop_cases (cfg : Config) (env : Env) (s : State) (price : ℚ)
    (qty : ℤ) :
    ∀ (fuel : ℕ) (tg : ℚ),
      pe_loop cfg env s price qty tg fuel = .spin s ∨
      pe_loop cfg env s price qty tg fuel = .exn s ∨
      pe_loop cfg env s price qty tg fuel = .ok s ∨
      ∃ sym, pe_loop cfg env s price qty tg fuel =
        .ok { strat_place_order cfg env s sym qty with pe_reset_gap_flag := 1 } := by
  intro fuel
  induction fuel with
  | zero => intro tg; left; rfl
  | succ n ih =>
      intro tg
      unfold pe_loop
      cases hf : find_nifty_symbol_from_gap cfg "PE" price tg with
      | error e => right; left; rfl
      | ok o =>
          cases o with
          | none => right; right; left; rfl
          | some instrument =>
              by_cases hq : env.quote (cfg.exchange ++ ":" ++ instrument.tradingsymbol)
                  < cfg.min_price_to_sell
              · simpa [hq] using ih (tg - cfg.strike_difference)
              · right; right; right
                exact ⟨instrument.tradingsymbol, by simp [hq]⟩

lemma ce_loop_cases (cfg : Config) (env : Env) (s : State) (price : ℚ)
    (qty : ℤ) :
    ∀ (fuel : ℕ) (tg : ℚ),
      ce_loop cfg env s price qty tg fuel = .spin s ∨
      ce_loop cfg env s price qty tg fuel = .exn s ∨
      ce_loop cfg env s price qty tg fuel = .ok s ∨
      ∃ sym, ce_loop cfg env s price qty tg fuel =
        .ok { strat_place_order cfg env s sym qty with ce_reset_gap_flag := 1 } := by
  intro fuel
  induction fuel with
  | zero => intro tg; left; rfl
  | succ n ih =>
      intro tg
      unfold ce_loop
      cases hf : find_nifty_symbol_from_gap cfg "CE" price tg with
      | error e => right; left; rfl
      | ok o =>
          cases o with
          | none => right; right; left; rfl
          | some instrument =>
              by_cases hq : env.quote (cfg.exchange ++ ":" ++ instrument.tradingsymbol)
                  < cfg.min_price_to_sell
              · simpa [hq] using ih (tg - cfg.strike_difference)
              · right; right; right
                exact ⟨instrument.tradingsymbol, by simp [hq]⟩

lemma pe_loop_stateOf_proj (cfg : Config) (env : Env) (s : State) (price : ℚ)
    (qty : ℤ) (tg : ℚ) (fuel : ℕ) :
    (stateOf (pe_loop cfg env s price qty tg fuel)).nifty_pe_last_value =
      s.nifty_pe_last_value ∧
    (stateOf (pe_loop cfg env s price qty tg fuel)).nifty_ce_last_value =
      s.nifty_ce_last_value ∧
    (stateOf (pe_loop cfg env s price qty tg fuel)).ce_reset_gap_flag =
      s.ce_reset_gap_flag ∧
    ((stateOf (pe_loop cfg env s price qty tg fuel)).pe_reset_gap_flag =
        s.pe_reset_gap_flag ∨
      (stateOf (pe_loop cfg env s price qty tg fuel)).pe_reset_gap_flag = 1) := by
  rcases pe_loop_cases cfg env s price qty fuel tg with h | h | h | ⟨sym, h⟩
  · simp [h, stateOf]
  · simp [h, stateOf]
  · simp [h, stateOf]
  · obtain ⟨h1, h2, h3, h4⟩ := strat_place_order_proj cfg env s sym qty
    simp [h, stateOf, h1, h2, h4]

lemma ce_loop_stateOf_proj (cfg : Config) (env : Env) (s : State) (price : ℚ)
    (qty : ℤ) (tg : ℚ) (fuel : ℕ) :
    (stateOf (ce_loop cfg env s price qty tg fuel)).nifty_pe_last_value =
      s.nifty_pe_last_value ∧
    (stateOf (ce_loop cfg env s price qty tg fuel)).nifty_ce_last_value =
      s.nifty_ce_last_value ∧
    (stateOf (ce_loop cfg env s price qty tg fuel)).pe_reset_gap_flag =
      s.pe_reset_gap_flag ∧
    ((stateOf (ce_loop cfg env s price qty tg fuel)).ce_reset_gap_flag =
        s.ce_reset_gap_flag ∨
      (stateOf (ce_loop cfg env s price qty tg fuel)).ce_reset_gap_flag = 1) := by
  rcases ce_loop_cases cfg env s price qty fuel tg with h | h | h | ⟨sym, h⟩
  · simp [h, stateOf]
  · simp [h, stateOf]
  · simp [h, stateOf]
  · obtain ⟨h1, h2, h3, h4⟩ := strat_place_order_proj cfg env s sym qty
    simp [h, stateOf, h1, h2, h3]

lemma handle_pe_trade_fire_eq (cfg : Config) (env : Env) (s : State)
    (price : ℚ) (fuel : ℕ)
    (h1 : s.nifty_pe_last_value < price)
    (h2 : cfg.pe_gap < pyRound (price - s.nifty_pe_last_value))
    (h3 : check_sell_multiplier_breach cfg
      (pyTrunc (pyRound (price - s.nifty_pe_last_value) / cfg.pe_gap)) = false) :
    handle_pe_trade cfg env s price fuel =
      pe_loop cfg env
        { s with nifty_pe_last_value := s.nifty_pe_last_value +
            cfg.pe_gap *
              (pyTrunc (pyRound (price - s.nifty_pe_last_value) / cfg.pe_gap) : ℚ) }
        price
        (pyTrunc (pyRound (price - s.nifty_pe_last_value) / cfg.pe_gap) *
          cfg.pe_quantity)
        cfg.pe_symbol_gap fuel := by
  simp [handle_pe_trade, not_le.mpr h1, h2, h3]

lemma handle_ce_trade_fire_eq (cfg : Config) (env : Env) (s : State)
    (price : ℚ) (fuel : ℕ)
    (h1 : price < s.nifty_ce_last_value)
    (h2 : cfg.ce_gap < pyRound (s.nifty_ce_last_value - price))
    (h3 : check_sell_multiplier_breach cfg
      (pyTrunc (pyRound (s.nifty_ce_last_value - price) / cfg.ce_gap)) = false) :
    handle_ce_trade cfg env s price fuel =
      ce_loop cfg env
        { s with nifty_ce_last_value := s.nifty_ce_last_value -
            cfg.ce_gap *
              (pyTrunc (pyRound (s.nifty_ce_last_value - price) / cfg.ce_gap) : ℚ) }
        price
        (pyTrunc (pyRound (s.nifty_ce_last_value - price) / cfg.ce_gap) *
          cfg.ce_quantity)
        cfg.ce_symbol_gap fuel := by
  simp [handle_ce_trade, not_le.mpr h1, h2, h3]

lemma handle_pe_trade_ok_cases (cfg : Config) (env : Env) (s : State)
    (price : ℚ) (fuel : ℕ) :
    handle_pe_trade cfg env s price fuel = .ok s ∨
    ∃ s', handle_pe_trade cfg env s price fuel =
        pe_loop cfg env s' price
          (pyTrunc (pyRound (price - s.nifty_pe_last_value) / cfg.pe_gap) *
            cfg.pe_quantity)
          cfg.pe_symbol_gap fuel ∧
      s' = { s with nifty_pe_last_value := s.nifty_pe_last_value +
        cfg.pe_gap *
          (pyTrunc (pyRound (price - s.nifty_pe_last_value) / cfg.pe_gap) : ℚ) } := by
  unfold handle_pe_trade
  by_cases hle : price ≤ s.nifty_pe_last_value
  · left; simp [hle]
  · by_cases hgt : cfg.pe_gap < pyRound (price - s.nifty_pe_last_value)
    · by_cases hbr : check_sell_multiplier_breach cfg
          (pyTrunc (pyRound (price - s.nifty_pe_last_value) / cfg.pe_gap)) = true
      · left; simp [hle, hgt, hbr]
      · right; exact ⟨_, by simp [hle, hgt, hbr], rfl⟩
    · left; simp [hle, hgt]

lemma handle_ce_trade_ok_cases (cfg : Config) (env : Env) (s : State)
    (price : ℚ) (fuel : ℕ) :
    handle_ce_trade cfg env s price fuel = .ok s ∨
    ∃ s', handle_ce_trade cfg env s price fuel =
        ce_loop cfg env s' price
          (pyTrunc (pyRound (s.nifty_ce_last_value - price) / cfg.ce_gap) *
            cfg.ce_quantity)
          cfg.ce_symbol_gap fuel ∧
      s' = { s with nifty_ce_last_value := s.nifty_ce_last_value -
        cfg.ce_gap *
          (pyTrunc (pyRound (s.nifty_ce_last_value - price) / cfg.ce_gap) : ℚ) } := by
  unfold handle_ce_trade
  by_cases hle : s.nifty_ce_last_value ≤ price
  · left; simp [hle]
  · by_cases hgt : cfg.ce_gap < pyRound (s.nifty_ce_last_value - price)
    · by_cases hbr : check_sell_multiplier_breach cfg
          (pyTrunc (pyRound (s.nifty_ce_last_value - price) / cfg.ce_gap)) = true
      · left; simp [hle, hgt, hbr]
      · right; exact ⟨_, by simp [hle, hgt, hbr], rfl⟩
    · left; simp [hle, hgt]

lemma handle_pe_trade_side_proj (cfg : Config) (env : Env) (s : State)
    (price : ℚ) (fuel : ℕ) :
    (stateOf (handle_pe_trade cfg env s price fuel)).nifty_ce_last_value =
      s.nifty_ce_last_value ∧
    (stateOf (handle_pe_trade cfg env s price fuel)).ce_reset_gap_flag =
      s.ce_reset_gap_flag ∧
    (s.pe_reset_gap_flag ≠ 0 →
      (stateOf (handle_pe_trade cfg env s price fuel)).pe_reset_gap_flag ≠ 0) := by
  rcases handle_pe_trade_ok_cases cfg env s price fuel with h | ⟨s', h, hs'⟩
  · simp [h, stateOf]
  · obtain ⟨p1, p2, p3, p4⟩ := pe_loop_stateOf_proj cfg env s' price
      (pyTrunc (pyRound (price - s.nifty_pe_last_value) / cfg.pe_gap) *
        cfg.pe_quantity) cfg.pe_symbol_gap fuel
    rw [h]
    refine ⟨?_, ?_, ?_⟩
    · rw [p2, hs']
    · rw [p3, hs']
    · intro hne
      rcases p4 with p4 | p4
      · rw [p4, hs']; exact hne
      · rw [p4]; exact one_ne_zero

lemma handle_ce_trade_side_proj (cfg : Config) (env : Env) (s : State)
    (price : ℚ) (fuel : ℕ) :
    (stateOf (handle_ce_trade cfg env s price fuel)).nifty_pe_last_value =
      s.nifty_pe_last_value ∧
    (stateOf (handle_ce_trade cfg env s price fuel)).pe_reset_gap_flag =
      s.pe_reset_gap_flag ∧
    (s.ce_reset_gap_flag ≠ 0 →
      (stateOf (handle_ce_trade cfg env s price fuel)).ce_reset_gap_flag ≠ 0) := by
  rcases handle_ce_trade_ok_cases cfg env s price fuel with h | ⟨s', h, hs'⟩
  · simp [h, stateOf]
  · obtain ⟨p1, p2, p3, p4⟩ := ce_loop_stateOf_proj cfg env s' price
      (pyTrunc (pyRound (s.nifty_ce_last_value - price) / cfg.ce_gap) *
        cfg.ce_quantity) cfg.ce_symbol_gap fuel
    rw [h]
    refine ⟨?_, ?_, ?_⟩
    · rw [p1, hs']
    · rw [p3, hs']
    · intro hne
      rcases p4 with p4 | p4
      · rw [p4, hs']; exact hne
      · rw [p4]; exact one_ne_zero

lemma reset_reference_values_flags (cfg : Config) (s : State) (price : ℚ) :
    (reset_reference_values cfg s price).pe_reset_gap_flag =
      s.pe_reset_gap_flag ∧
    (reset_reference_values cfg s price).ce_reset_gap_flag =
      s.ce_reset_gap_flag := by
  constructor <;> (simp only [reset_reference_values]; split_ifs <;> rfl)

lemma reset_reference_values_pe_fires (cfg : Config) (s : State) (price : ℚ)
    (h1 : s.pe_reset_gap_flag ≠ 0)
    (h2 : cfg.pe_reset_gap < s.nifty_pe_last_value - price) :
    (reset_reference_values cfg s price).nifty_pe_last_value =
      price + cfg.pe_reset_gap := by
  simp only [reset_reference_values]
  split_ifs with ha hb hb
  · rfl
  · rfl
  · exact absurd ⟨h1, h2⟩ ha
  · exact absurd ⟨h1, h2⟩ ha

lemma reset_reference_values_ce_fires (cfg : Config) (s : State) (price : ℚ)
    (h1 : s.ce_reset_gap_flag ≠ 0)
    (h2 : cfg.ce_reset_gap < price - s.nifty_ce_last_value) :
    (reset_reference_values cfg s price).nifty_ce_last_value =
      price - cfg.ce_reset_gap := by
  simp only [reset_reference_values]
  split_ifs with ha hb hb
  · rfl
  · exact absurd ⟨h1, h2⟩ hb
  · rfl
  · exact absurd ⟨h1, h2⟩ hb

lemma on_ticks_update_eq_exn_pe (cfg : Config) (env : Env) (s s1 : State)
    (price : ℚ) (fuel : ℕ)
    (hp : handle_pe_trade cfg env s price fuel = .exn s1) :
    on_ticks_update cfg env s price fuel = .exn s1 := by
  simp [on_ticks_update, hp]

lemma on_ticks_update_eq_spin_pe (cfg : Config) (env : Env) (s s1 : State)
    (price : ℚ) (fuel : ℕ)
    (hp : handle_pe_trade cfg env s price fuel = .spin s1) :
    on_ticks_update cfg env s price fuel = .spin s1 := by
  simp [on_ticks_update, hp]

lemma on_ticks_update_eq_exn_ce (cfg : Config) (env : Env) (s s1 s2 : State)
    (price : ℚ) (fuel : ℕ)
    (hp : handle_pe_trade cfg env s price fuel = .ok s1)
    (hc : handle_ce_trade cfg env s1 price fuel = .exn s2) :
    on_ticks_update cfg env s price fuel = .exn s2 := by
  simp [on_ticks_update, hp, hc]

lemma on_ticks_update_eq_spin_ce (cfg : Config) (env : Env) (s s1 s2 : State)
    (price : ℚ) (fuel : ℕ)
    (hp : handle_pe_trade cfg env s price fuel = .ok s1)
    (hc : handle_ce_trade cfg env s1 price fuel = .spin s2) :
    on_ticks_update cfg env s price fuel = .spin s2 := by
  simp [on_ticks_update, hp, hc]

lemma on_ticks_update_eq_ok (cfg : Config) (env : Env) (s s1 s2 : State)
    (price : ℚ) (fuel : ℕ)
    (hp : handle_pe_trade cfg env s price fuel = .ok s1)
    (hc : handle_ce_trade cfg env s1 price fuel = .ok s2) :
    on_ticks_update cfg env s price fuel =
      .ok (reset_reference_values cfg s2 price) := by
  simp [on_ticks_update, hp, hc]

lemma on_ticks_update_flags_mono (cfg : Config) (env : Env) (s : State)
    (price : ℚ) (fuel : ℕ) :
    (s.pe_reset_gap_flag ≠ 0 →
      (stateOf (on_ticks_update cfg env s price fuel)).pe_reset_gap_flag ≠ 0) ∧
    (s.ce_reset_gap_flag ≠ 0 →
      (stateOf (on_ticks_update cfg env s price fuel)).ce_reset_gap_flag ≠ 0) := by
  obtain ⟨pe1, pe2, pe3⟩ := handle_pe_trade_side_proj cfg env s price fuel
  cases hp : handle_pe_trade cfg env s price fuel with
  | exn s1 =>
      rw [hp] at pe2 pe3
      rw [on_ticks_update_eq_exn_pe cfg env s s1 price fuel hp]
      exact ⟨fun h => pe3 h, fun h => by simp only [stateOf] at pe2 ⊢; rw [pe2]; exact h⟩
  | spin s1 =>
      rw [hp] at pe2 pe3
      rw [on_ticks_update_eq_spin_pe cfg env s s1 price fuel hp]
      exact ⟨fun h => pe3 h, fun h => by simp only [stateOf] at pe2 ⊢; rw [pe2]; exact h⟩
  | ok s1 =>
      rw [hp] at pe2 pe3
      simp only [stateOf] at pe2 pe3
      obtain ⟨ce1, ce2, ce3⟩ := handle_ce_trade_side_proj cfg env s1 price fuel
      cases hc : handle_ce_trade cfg env s1 price fuel with
      | exn s2 =>
          rw [hc] at ce2 ce3
          simp only [stateOf] at ce2 ce3
          rw [on_ticks_update_eq_exn_ce cfg env s s1 s2 price fuel hp hc]
          refine ⟨fun h => ?_, fun h => ?_⟩
          · simp only [stateOf]; rw [ce2]; exact pe3 h
          · simp only [stateOf]; exact ce3 (pe2 ▸ h)
      | spin s2 =>
          rw [hc] at ce2 ce3
          simp only [stateOf] at ce2 ce3
          rw [on_ticks_update_eq_spin_ce cfg env s s1 s2 price fuel hp hc]
          refine ⟨fun h => ?_, fun h => ?_⟩
          · simp only [stateOf]; rw [ce2]; exact pe3 h
          · simp only [stateOf]; exact ce3 (pe2 ▸ h)
      | ok s2 =>
          rw [hc] at ce2 ce3
          simp only [stateOf] at ce2 ce3
          obtain ⟨r1, r2⟩ := reset_reference_values_flags cfg s2 price
          rw [on_ticks_update_eq_ok cfg env s s1 s2 price fuel hp hc]
          refine ⟨fun h => ?_, fun h => ?_⟩
          · simp only [stateOf]; rw [r1, ce2]; exact pe3 h
          · simp only [stateOf]; rw [r2]; exact ce3 (pe2 ▸ h)

lemma load_current_step_none (p : String × Order) :
    load_current_step none p = some p.2 := rfl

lemma load_current_step_some (b : Order) (p : String × Order) :
    load_current_step (some b) p =
      if b.timestamp < p.2.timestamp then some p.2 else some b := rfl

lemma load_current_step_from (c : Order) :
    ∀ l : List (String × Order),
    (∀ p ∈ l, p.2 = c ∨ p.2.timestamp < c.timestamp) →
    List.foldl load_current_step (some c) l = some c := by
  intro l
  induction l with
  | nil => intro _; rfl
  | cons p tl ih =>
      intro h
      have hp := h p (List.mem_cons_self p tl)
      have hstep : load_current_step (some c) p = some c := by
        rw [load_current_step_some]
        rcases hp with h1 | h1
        · rw [h1, if_neg (lt_irrefl c.timestamp)]
        · rw [if_neg (by omega)]
      rw [List.foldl_cons, hstep]
      exact ih (fun q hq => h q (List.mem_cons_of_mem p hq))

lemma load_current_go (c : Order) :
    ∀ (l : List (String × Order)) (acc : Option Order),
    (acc = none ∨ ∃ b, acc = some b ∧ b.timestamp < c.timestamp) →
    (∃ p ∈ l, p.2 = c) →
    (∀ p ∈ l, p.2 = c ∨ p.2.timestamp < c.timestamp) →
    List.foldl load_current_step acc l = some c := by
  intro l
  induction l with
  | nil =>
      intro acc _ hex _
      simp at hex
  | cons p tl ih =>
      intro acc hacc hex hall
      have htl : ∀ q ∈ tl, q.2 = c ∨ q.2.timestamp < c.timestamp :=
        fun q hq => hall q (List.mem_cons_of_mem p hq)
      rw [List.foldl_cons]
      by_cases hp : p.2 = c
      · have hstep : load_current_step acc p = some c := by
          rcases hacc with rfl | ⟨b, rfl, hb⟩
          · rw [load_current_step_none, hp]
          · rw [load_current_step_some, if_pos (hp ▸ hb), hp]
        rw [hstep]
        exact load_current_step_from c tl htl
      · have hlt : p.2.timestamp < c.timestamp :=
          (hall p (List.mem_cons_self p tl)).resolve_left hp
        have hex' : ∃ q ∈ tl, q.2 = c := by
          rcases hex with ⟨q, hq, hqc⟩
          rcases List.mem_cons.mp hq with rfl | hmem
          · exact absurd hqc hp
          · exact ⟨q, hmem, hqc⟩
        have hacc' : load_current_step acc p = none ∨
            ∃ b, load_current_step acc p = some b ∧ b.timestamp < c.timestamp := by
          rcases hacc with rfl | ⟨b, rfl, hb⟩
          · exact Or.inr ⟨p.2, load_current_step_none p, hlt⟩
          · rw [load_current_step_some]
            by_cases hbp : b.timestamp < p.2.timestamp
            · exact Or.inr ⟨p.2, by rw [if_pos hbp], hlt⟩
            · exact Or.inr ⟨b, by rw [if_neg hbp], hb⟩
        exact ih _ hacc' hex' htl

lemma load_current_strict_max (c : Order) (l : List (String × Order))
    (hex : ∃ p ∈ l, p.2 = c)
    (hall : ∀ p ∈ l, p.2 = c ∨ p.2.timestamp < c.timestamp) :
    load_current l = some c :=
  load_current_go c l none (Or.inl rfl) hex hall

lemma lookup_cons_self {α : Type} (k : String) (v : α)
    (tl : List (String × α)) :
    ((k, v) :: tl).lookup k = some v := by
  show (match k == k with
    | true => some v
    | false => tl.lookup k) = some v
  rw [beq_self_eq_true]

lemma lookup_cons_ne {α : Type} (k pk : String) (pv : α)
    (tl : List (String × α)) (h : k ≠ pk) :
    ((pk, pv) :: tl).lookup k = tl.lookup k := by
  show (match k == pk with
    | true => some pv
    | false => tl.lookup k) = tl.lookup k
  rw [beq_eq_false_iff_ne.mpr h]

lemma lookup_none_of_any_false {k : String} :
    ∀ l : List (String × ℕ), l.any (fun p => p.1 == k) = false →
    l.lookup k = none := by
  intro l
  induction l with
  | nil => intro _; rfl
  | cons p tl ih =>
      intro h
      obtain ⟨pk, pv⟩ := p
      simp only [List.any_cons, Bool.or_eq_false_iff] at h
      have h1 : pk ≠ k := by simpa using h.1
      rw [lookup_cons_ne k pk pv tl (Ne.symm h1)]
      exact ih h.2

lemma lookup_some_of_any_true {k : String} :
    ∀ l : List (String × ℕ), l.any (fun p => p.1 == k) = true →
    ∃ n, l.lookup k = some n := by
  intro l
  induction l with
  | nil => intro h; simp at h
  | cons p tl ih =>
      intro h
      obtain ⟨pk, pv⟩ := p
      by_cases hk : pk = k
      · subst hk
        exact ⟨pv, lookup_cons_self pk pv tl⟩
      · have htl : tl.any (fun p => p.1 == k) = true := by
          simp only [List.any_cons, Bool.or_eq_true] at h
          rcases h with h | h
          · exact absurd (by simpa using h) hk
          · exact h
        obtain ⟨n, hn⟩ := ih htl
        exact ⟨n, by rw [lookup_cons_ne k pk pv tl (Ne.symm hk)]; exact hn⟩

lemma lookup_bump_map {k : String} :
    ∀ l : List (String × ℕ),
    (l.map (fun p => if p.1 == k then (p.1, p.2 + 1) else p)).lookup k =
      (l.lookup k).map (fun n => n + 1) := by
  intro l
  induction l with
  | nil => rfl
  | cons p tl ih =>
      obtain ⟨pk, pv⟩ := p
      rw [List.map_cons]
      by_cases hk : pk = k
      · subst hk
        have hsf : (if ((pk, pv).1 == pk) = true then ((pk, pv).1, (pk, pv).2 + 1)
            else (pk, pv)) = (pk, pv + 1) := by
          rw [if_pos (beq_self_eq_true pk)]
        rw [hsf, lookup_cons_self pk pv tl, lookup_cons_self pk (pv + 1)]
        rfl
      · have hsf : (if ((pk, pv).1 == k) = true then ((pk, pv).1, (pk, pv).2 + 1)
            else (pk, pv)) = (pk, pv) := by
          rw [if_neg]
          rw [beq_eq_false_iff_ne.mpr hk]
          exact Bool.false_ne_true
        rw [hsf, lookup_cons_ne k pk pv _ (Ne.symm hk),
          lookup_cons_ne k pk pv tl (Ne.symm hk)]
        exact ih

lemma lookup_append_right {k : String} (v : ℕ) :
    ∀ l : List (String × ℕ), l.lookup k = none →
    (l ++ [(k, v)]).lookup k = some v := by
  intro l
  induction l with
  | nil => intro _; exact lookup_cons_self k v []
  | cons p tl ih =>
      intro hl
      obtain ⟨pk, pv⟩ := p
      by_cases hk : k = pk
      · subst hk
        rw [lookup_cons_self k pv tl] at hl
        exact absurd hl (by simp)
      · rw [lookup_cons_ne k pk pv tl hk] at hl
        rw [List.cons_append, lookup_cons_ne k pk pv _ hk]
        exact ih hl

lemma summary_count_bump (l : List (String × ℕ)) (k : String) :
    summary_count (bump_summary l k) k = summary_count l k + 1 := by
  unfold bump_summary
  by_cases h : l.any (fun p => p.1 == k) = true
  · rw [if_pos h]
    obtain ⟨n, hn⟩ := lookup_some_of_any_true l h
    unfold summary_count
    rw [lookup_bump_map l, hn]
    rfl
  · have hfalse : l.any (fun p => p.1 == k) = false := by
      cases hb : l.any (fun p => p.1 == k) with
      | true => exact absurd hb h
      | false => rfl
    rw [if_neg (by rw [hfalse]; exact Bool.false_ne_true)]
    have hnone := lookup_none_of_any_false l hfalse
    unfold summary_count
    rw [lookup_append_right 1 l hnone, hnone]

lemma pe_decision_isSome_iff (cfg : Config) (ref price : ℚ) :
    (pe_decision cfg ref price).isSome ↔
      (ref < price ∧ cfg.pe_gap < pyRound (price - ref) ∧
        ((pyTrunc (pyRound (price - ref) / cfg.pe_gap) : ℚ) ≤
          cfg.sell_multiplier_threshold)) := by
  unfold pe_decision
  by_cases h1 : price ≤ ref
  · simp [h1, not_lt.mpr h1]
  · by_cases h2 : cfg.pe_gap < pyRound (price - ref)
    · by_cases h3 : check_sell_multiplier_breach cfg
          (pyTrunc (pyRound (price - ref) / cfg.pe_gap)) = true
      · have h3' : cfg.sell_multiplier_threshold <
            (pyTrunc (pyRound (price - ref) / cfg.pe_gap) : ℚ) := by
          simpa [check_sell_multiplier_breach] using h3
        simp [h1, h2, h3, not_le.mpr h3']
      · have h3' : (pyTrunc (pyRound (price - ref) / cfg.pe_gap) : ℚ) ≤
            cfg.sell_multiplier_threshold := by
          have := h3
          simp only [check_sell_multiplier_breach, decide_eq_true_eq] at this
          exact not_lt.mp this
        simp [h1, h2, h3, not_le.mp h1, h3']
    · simp [h1, h2]

lemma ce_decision_isSome_iff (cfg : Config) (ref price : ℚ) :
    (ce_decision cfg ref price).isSome ↔
      (price < ref ∧ cfg.ce_gap < pyRound (ref - price) ∧
        ((pyTrunc (pyRound (ref - price) / cfg.ce_gap) : ℚ) ≤
          cfg.sell_multiplier_threshold)) := by
  unfold ce_decision
  by_cases h1 : ref ≤ price
  · simp [h1, not_lt.mpr h1]
  · by_cases h2 : cfg.ce_gap < pyRound (ref - price)
    · by_cases h3 : check_sell_multiplier_breach cfg
          (pyTrunc (pyRound (ref - price) / cfg.ce_gap)) = true
      · have h3' : cfg.sell_multiplier_threshold <
            (pyTrunc (pyRound (ref - price) / cfg.ce_gap) : ℚ) := by
          simpa [check_sell_multiplier_breach] using h3
        simp [h1, h2, h3, not_le.mpr h3']
      · have h3' : (pyTrunc (pyRound (ref - price) / cfg.ce_gap) : ℚ) ≤
            cfg.sell_multiplier_threshold := by
          have := h3
          simp only [check_sell_multiplier_breach, decide_eq_true_eq] at this
          exact not_lt.mp this
        simp [h1, h2, h3, not_le.mp h1, h3']
    · simp [h1, h2]

lemma pe_decision_some_spec (cfg : Config) (ref price : ℚ) (m q : ℤ)
    (hgap : 0 < cfg.pe_gap)
    (h : pe_decision cfg ref price = some (m, q)) :
    m = ⌊pyRound (price - ref) / cfg.pe_gap⌋ ∧ 1 ≤ m ∧
      q = m * cfg.pe_quantity := by
  unfold pe_decision at h
  by_cases h1 : price ≤ ref
  · rw [if_pos h1] at h; exact absurd h (by simp)
  · by_cases h2 : cfg.pe_gap < pyRound (price - ref)
    · by_cases h3 : check_sell_multiplier_breach cfg
          (pyTrunc (pyRound (price - ref) / cfg.pe_gap)) = true
      · simp only [if_neg h1, if_pos h2, h3, if_true] at h
        exact absurd h (by simp)
      · simp only [if_neg h1, if_pos h2, h3, Bool.false_eq_true, if_false,
          Option.some.injEq, Prod.mk.injEq] at h
        have hd : 0 < pyRound (price - ref) := lt_trans hgap h2
        have hx : 0 ≤ pyRound (price - ref) / cfg.pe_gap :=
          le_of_lt (div_pos hd hgap)
        have htr : pyTrunc (pyRound (price - ref) / cfg.pe_gap) =
            ⌊pyRound (price - ref) / cfg.pe_gap⌋ := by
          rw [pyTrunc, if_pos hx]
        refine ⟨h.1 ▸ htr, ?_, by rw [← h.1, ← h.2]⟩
        rw [← h.1, htr]
        rw [Int.le_floor]
        push_cast
        rw [one_le_div hgap]
        exact le_of_lt h2
    · simp only [if_neg h1, if_neg h2] at h
      exact absurd h (by simp)

lemma ce_decision_some_spec (cfg : Config) (ref price : ℚ) (m q : ℤ)
    (hgap : 0 < cfg.ce_gap)
    (h : ce_decision cfg ref price = some (m, q)) :
    m = ⌊pyRound (ref - price) / cfg.ce_gap⌋ ∧ 1 ≤ m ∧
      q = m * cfg.ce_quantity := by
  unfold ce_decision at h
  by_cases h1 : ref ≤ price
  · rw [if_pos h1] at h; exact absurd h (by simp)
  · by_cases h2 : cfg.ce_gap < pyRound (ref - price)
    · by_cases h3 : check_sell_multiplier_breach cfg
          (pyTrunc (pyRound (ref - price) / cfg.ce_gap)) = true
      · simp only [if_neg h1, if_pos h2, h3, if_true] at h
        exact absurd h (by simp)
      · simp only [if_neg h1, if_pos h2, h3, Bool.false_eq_true, if_false,
          Option.some.injEq, Prod.mk.injEq] at h
        have hd : 0 < pyRound (ref - price) := lt_trans hgap h2
        have hx : 0 ≤ pyRound (ref - price) / cfg.ce_gap :=
          le_of_lt (div_pos hd hgap)
        have htr : pyTrunc (pyRound (ref - price) / cfg.ce_gap) =
            ⌊pyRound (ref - price) / cfg.ce_gap⌋ := by
          rw [pyTrunc, if_pos hx]
        refine ⟨h.1 ▸ htr, ?_, by rw [← h.1, ← h.2]⟩
        rw [← h.1, htr]
        rw [Int.le_floor]
        push_cast
        rw [one_le_div hgap]
        exact le_of_lt h2
    · simp only [if_neg h1, if_neg h2] at h
      exact absurd h (by simp)

lemma pe_decision_eq_gap (cfg : Config) (ref price : ℚ)
    (h : pyRound (price - ref) = cfg.pe_gap) :
    pe_decision cfg ref price = none := by
  unfold pe_decision
  by_cases h1 : price ≤ ref
  · rw [if_pos h1]
  · rw [if_neg h1]
    simp only [h, lt_self_iff_false, if_false]

lemma ce_decision_eq_gap (cfg : Config) (ref price : ℚ)
    (h : pyRound (ref - price) = cfg.ce_gap) :
    ce_decision cfg ref price = none := by
  unfold ce_decision
  by_cases h1 : ref ≤ price
  · rw [if_pos h1]
  · rw [if_neg h1]
    simp only [h, lt_self_iff_false, if_false]

lemma handle_pe_trade_suppressed (cfg : Config) (env : Env) (s : State)
    (price : ℚ) (fuel : ℕ)
    (h1 : s.nifty_pe_last_value < price)
    (h2 : cfg.pe_gap < pyRound (price - s.nifty_pe_last_value))
    (h3 : cfg.sell_multiplier_threshold <
      (pyTrunc (pyRound (price - s.nifty_pe_last_value) / cfg.pe_gap) : ℚ)) :
    handle_pe_trade cfg env s price fuel = .ok s ∧
      pe_decision cfg s.nifty_pe_last_value price = none := by
  have hbr : check_sell_multiplier_breach cfg
      (pyTrunc (pyRound (price - s.nifty_pe_last_value) / cfg.pe_gap)) = true := by
    simp [check_sell_multiplier_breach, h3]
  constructor
  · simp [handle_pe_trade, not_le.mpr h1, h2, hbr]
  · simp [pe_decision, not_le.mpr h1, h2, hbr]

lemma handle_ce_trade_suppressed (cfg : Config) (env : Env) (s : State)
    (price : ℚ) (fuel : ℕ)
    (h1 : price < s.nifty_ce_last_value)
    (h2 : cfg.ce_gap < pyRound (s.nifty_ce_last_value - price))
    (h3 : cfg.sell_multiplier_threshold <
      (pyTrunc (pyRound (s.nifty_ce_last_value - price) / cfg.ce_gap) : ℚ)) :
    handle_ce_trade cfg env s price fuel = .ok s ∧
      ce_decision cfg s.nifty_ce_last_value price = none := by
  have hbr : check_sell_multiplier_breach cfg
      (pyTrunc (pyRound (s.nifty_ce_last_value - price) / cfg.ce_gap)) = true := by
    simp [check_sell_multiplier_breach, h3]
  constructor
  · simp [handle_ce_trade, not_le.mpr h1, h2, hbr]
  · simp [ce_decision, not_le.mpr h1, h2, hbr]

lemma scenario_pe_ref_advance (env : Env) (fuel : ℕ) (s0 : State)
    (h : s0.nifty_pe_last_value = 100) :
    (stateOf (handle_pe_trade cfgS env s0 125 fuel)).nifty_pe_last_value = 120 := by
  have h1 : s0.nifty_pe_last_value < 125 := by rw [h]; norm_num
  have h2 : cfgS.pe_gap < pyRound (125 - s0.nifty_pe_last_value) := by
    rw [h]; norm_num [pyRound, cfgS]
  have h3 : check_sell_multiplier_breach cfgS
      (pyTrunc (pyRound (125 - s0.nifty_pe_last_value) / cfgS.pe_gap)) = false := by
    rw [h]
    norm_num [pyRound, pyTrunc, check_sell_multiplier_breach, cfgS]
  rw [handle_pe_trade_fire_eq cfgS env s0 125 fuel h1 h2 h3]
  rw [(pe_loop_stateOf_proj cfgS env _ 125 _ cfgS.pe_symbol_gap fuel).1]
  show s0.nifty_pe_last_value + cfgS.pe_gap *
    ((pyTrunc (pyRound (125 - s0.nifty_pe_last_value) / cfgS.pe_gap) : ℤ) : ℚ) = 120
  rw [h]
  norm_num [pyRound, pyTrunc, cfgS]

/-- C1 counterexample.  The claim states that a SellDecision is produced
iff the favorable price difference strictly exceeds the gap.  With
reference 100, gap 10 and tick price 110.4 the difference 10.4 strictly
exceeds the gap, yet the code first applies round(., 0), obtaining 10,
which is not strictly greater than 10, so no decision is produced. -/
theorem claim_C1_counterexample :
    (100 : ℚ) < 552/5 ∧ cfgS.pe_gap < 552/5 - 100 ∧
      pe_decision cfgS 100 (552/5) = none := by
  refine ⟨by norm_num, by norm_num [cfgS], ?_⟩
  unfold pe_decision pyRound
  norm_num [cfgS]

/-- C1 amended: a decision is produced iff the price is strictly on the
favorable side, the ROUNDED difference round(price-ref, 0) (half to even)
strictly exceeds the gap, and the multiplier does not exceed the
sell-multiplier threshold; on a fire the multiplier is
floor(roundedDiff / gap) with multiplier at least 1 and quantity equal to
multiplier times the per-unit quantity; a rounded difference exactly equal
to the gap produces no decision; the scenario reference 100, gap 10,
quantity 50, threshold 5, price 125 gives multiplier 2, quantity 100 and
new reference 120. -/
theorem claim_C1_amended (cfg : Config) (ref price : ℚ)
    (hgap_pe : 0 < cfg.pe_gap) (hgap_ce : 0 < cfg.ce_gap) :
    ((pe_decision cfg ref price).isSome ↔
      (ref < price ∧ cfg.pe_gap < pyRound (price - ref) ∧
        ((pyTrunc (pyRound (price - ref) / cfg.pe_gap) : ℚ) ≤
          cfg.sell_multiplier_threshold))) ∧
    (∀ m q : ℤ, pe_decision cfg ref price = some (m, q) →
      m = ⌊pyRound (price - ref) / cfg.pe_gap⌋ ∧ 1 ≤ m ∧
        q = m * cfg.pe_quantity) ∧
    (pyRound (price - ref) = cfg.pe_gap → pe_decision cfg ref price = none) ∧
    ((ce_decision cfg ref price).isSome ↔
      (price < ref ∧ cfg.ce_gap < pyRound (ref - price) ∧
        ((pyTrunc (pyRound (ref - price) / cfg.ce_gap) : ℚ) ≤
          cfg.sell_multiplier_threshold))) ∧
    (∀ m q : ℤ, ce_decision cfg ref price = some (m, q) →
      m = ⌊pyRound (ref - price) / cfg.ce_gap⌋ ∧ 1 ≤ m ∧
        q = m * cfg.ce_quantity) ∧
    (pyRound (ref - price) = cfg.ce_gap → ce_decision cfg ref price = none) ∧
    pe_decision cfgS 100 125 = some (2, 100) ∧
    (∀ (env : Env) (fuel : ℕ) (s0 : State), s0.nifty_pe_last_value = 100 →
      (stateOf (handle_pe_trade cfgS env s0 125 fuel)).nifty_pe_last_value = 120) := by
  refine ⟨pe_decision_isSome_iff cfg ref price,
    fun m q h => pe_decision_some_spec cfg ref price m q hgap_pe h,
    pe_decision_eq_gap cfg ref price,
    ce_decision_isSome_iff cfg ref price,
    fun m q h => ce_decision_some_spec cfg ref price m q hgap_ce h,
    ce_decision_eq_gap cfg ref price,
    ?_, scenario_pe_ref_advance⟩
  unfold pe_decision pyRound pyTrunc check_sell_multiplier_breach
  norm_num [cfgS]

/-- Witness for C1 amended at reference 100, gap 10, price 125. -/
theorem claim_C1_amended_witness :
    (pe_decision cfgS 100 125).isSome ∧
    pe_decision cfgS 100 125 = some (2, 100) ∧
    (stateOf (handle_pe_trade cfgS envOk s7 125 2)).nifty_pe_last_value = 120 := by
  have h := claim_C1_amended cfgS 100 125 (by norm_num [cfgS]) (by norm_num [cfgS])
  refine ⟨?_, h.2.2.2.2.2.2.1, h.2.2.2.2.2.2.2 envOk 2 s7 rfl⟩
  rw [h.2.2.2.2.2.2.1]
  rfl

/-- C2: on every successful fire the reference price advances by exactly
gap * multiplier (up for the PUT side, down for the CALL side) before the
selection loop runs, and the advance survives every selection, quote and
placement outcome (the conclusion holds for the state carried by every
possible loop outcome, over all environments and fuels). -/
theorem claim_C2_theorem (cfg : Config) (env : Env) (s : State) (price : ℚ)
    (fuel : ℕ) :
    (s.nifty_pe_last_value < price →
      cfg.pe_gap < pyRound (price - s.nifty_pe_last_value) →
      check_sell_multiplier_breach cfg
        (pyTrunc (pyRound (price - s.nifty_pe_last_value) / cfg.pe_gap)) = false →
      (stateOf (handle_pe_trade cfg env s price fuel)).nifty_pe_last_value =
        s.nifty_pe_last_value + cfg.pe_gap *
          (pyTrunc (pyRound (price - s.nifty_pe_last_value) / cfg.pe_gap) : ℚ)) ∧
    (price < s.nifty_ce_last_value →
      cfg.ce_gap < pyRound (s.nifty_ce_last_value - price) →
      check_sell_multiplier_breach cfg
        (pyTrunc (pyRound (s.nifty_ce_last_value - price) / cfg.ce_gap)) = false →
      (stateOf (handle_ce_trade cfg env s price fuel)).nifty_ce_last_value =
        s.nifty_ce_last_value - cfg.ce_gap *
          (pyTrunc (pyRound (s.nifty_ce_last_value - price) / cfg.ce_gap) : ℚ)) := by
  constructor
  · intro h1 h2 h3
    rw [handle_pe_trade_fire_eq cfg env s price fuel h1 h2 h3]
    rw [(pe_loop_stateOf_proj cfg env _ price _ cfg.pe_symbol_gap fuel).1]
  · intro h1 h2 h3
    rw [handle_ce_trade_fire_eq cfg env s price fuel h1 h2 h3]
    rw [(ce_loop_stateOf_proj cfg env _ price _ cfg.ce_symbol_gap fuel).2.1]

/-- Witness for C2 at reference 100, gap 10, price 125 on the PUT side. -/
theorem claim_C2_witness :
    (stateOf (handle_pe_trade cfgS envFail s7 125 2)).nifty_pe_last_value = 120 := by
  have h := (claim_C2_theorem cfgS envFail s7 125 2).1
    (by norm_num [s7])
    (by norm_num [s7, cfgS, pyRound])
    (by norm_num [s7, cfgS, pyRound, pyTrunc, check_sell_multiplier_breach])
  rw [h]
  norm_num [s7, cfgS, pyRound, pyTrunc]

/-- C3: a tick whose computed multiplier strictly exceeds the
sell-multiplier threshold produces no decision and leaves the whole
strategy state (reference price and order ledger) unchanged; the scenario
reference 100, gap 10, threshold 1, price 200 computes multiplier 10 and
is suppressed with the reference staying 100. -/
theorem claim_C3_theorem (cfg : Config) (env : Env) (s : State) (price : ℚ)
    (fuel : ℕ) :
    (s.nifty_pe_last_value < price →
      cfg.pe_gap < pyRound (price - s.nifty_pe_last_value) →
      cfg.sell_multiplier_threshold <
        (pyTrunc (pyRound (price - s.nifty_pe_last_value) / cfg.pe_gap) : ℚ) →
      handle_pe_trade cfg env s price fuel = .ok s ∧
        pe_decision cfg s.nifty_pe_last_value price = none) ∧
    (price < s.nifty_ce_last_value →
      cfg.ce_gap < pyRound (s.nifty_ce_last_value - price) →
      cfg.sell_multiplier_threshold <
        (pyTrunc (pyRound (s.nifty_ce_last_value - price) / cfg.ce_gap) : ℚ) →
      handle_ce_trade cfg env s price fuel = .ok s ∧
        ce_decision cfg s.nifty_ce_last_value price = none) ∧
    (pyTrunc (pyRound ((200 : ℚ) - 100) / cfg3.pe_gap) = 10 ∧
      pe_decision cfg3 100 200 = none ∧
      ∀ (env' : Env) (fuel' : ℕ) (s' : State), s'.nifty_pe_last_value = 100 →
        handle_pe_trade cfg3 env' s' 200 fuel' = .ok s') := by
  refine ⟨handle_pe_trade_suppressed cfg env s price fuel,
    handle_ce_trade_suppressed cfg env s price fuel, ?_, ?_, ?_⟩
  · norm_num [pyRound, pyTrunc, cfg3, cfgS]
  · have h1 : (100 : ℚ) < 200 := by norm_num
    have h2 : cfg3.pe_gap < pyRound (200 - 100) := by
      norm_num [pyRound, cfg3, cfgS]
    have h3 : cfg3.sell_multiplier_threshold <
        (pyTrunc (pyRound ((200 : ℚ) - 100) / cfg3.pe_gap) : ℚ) := by
      norm_num [pyRound, pyTrunc, cfg3, cfgS]
    have hbr : check_sell_multiplier_breach cfg3
        (pyTrunc (pyRound ((200 : ℚ) - 100) / cfg3.pe_gap)) = true := by
      simp [check_sell_multiplier_breach, h3]
    simp [pe_decision, h2, hbr]
  · intro env' fuel' s' hs
    have h1 : s'.nifty_pe_last_value < 200 := by rw [hs]; norm_num
    have h2 : cfg3.pe_gap < pyRound (200 - s'.nifty_pe_last_value) := by
      rw [hs]; norm_num [pyRound, cfg3, cfgS]
    have h3 : cfg3.sell_multiplier_threshold <
        (pyTrunc (pyRound (200 - s'.nifty_pe_last_value) / cfg3.pe_gap) : ℚ) := by
      rw [hs]; norm_num [pyRound, pyTrunc, cfg3, cfgS]
    exact (handle_pe_trade_suppressed cfg3 env' s' 200 fuel' h1 h2 h3).1

/-- Witness for C3 at the suppression scenario. -/
theorem claim_C3_witness :
    handle_pe_trade cfg3 envFail s7 200 2 = .ok s7 ∧
    pe_decision cfg3 100 200 = none := by
  have h := claim_C3_theorem cfg3 envFail s7 200 2
  refine ⟨?_, h.2.2.2.1⟩
  exact (h.1 (by norm_num [s7])
    (by norm_num [s7, cfg3, cfgS, pyRound])
    (by norm_num [s7, cfg3, cfgS, pyRound, pyTrunc])).1

/-- C4 code bug.  The claim (and the docstring of
_find_nifty_symbol_from_gap) says that when the catalog subset for the
side is nonempty but no entry lies within strike_difference/2 of the
target strike, selection returns none and the tick continues.  In the
code the tolerance-filtered frame is empty and .iloc[0] raises
IndexError, aborting the tick: with a lone PE contract at strike 19500,
price 125 and gap 25 the target strike is 100, every distance exceeds the
tolerance 50, and the call raises (embedded as .error). -/
theorem claim_C4_code_bug :
    (cfg4.instruments.filter
      (fun i => i.instrument_type == "PE" && i.segment == "NFO-OPT")).isEmpty
        = false ∧
    find_nifty_symbol_from_gap cfg4 "PE" 125 25 = .error () := by
  constructor
  · simp [cfg4, cfgS, instFar]
  · unfold find_nifty_symbol_from_gap argmin_strike_diff
    norm_num [cfg4, cfgS, instFar, List.filter]

/-- C5 code bug.  The claim says the reset step runs for both sides once
per tick regardless of the outcome of trigger evaluation, selection and
placement.  When PE selection raises IndexError (see C4) the exception
propagates out of on_ticks_update, so neither the CE side nor
_reset_reference_values runs that tick: here the tick ends in the
exception outcome while the CE reset condition (flag armed, 125 - 100 >
5) is satisfied, and applying the reset step to the final state would
still change it. -/
theorem claim_C5_code_bug :
    on_ticks_update cfg4 envFail s5 125 3 =
      .exn { nifty_pe_last_value := 120, nifty_ce_last_value := 100,
             pe_reset_gap_flag := 0, ce_reset_gap_flag := 1,
             tracker := tracker0 } ∧
    reset_reference_values cfg4
        { nifty_pe_last_value := 120, nifty_ce_last_value := 100,
          pe_reset_gap_flag := 0, ce_reset_gap_flag := 1,
          tracker := tracker0 } 125 ≠
      { nifty_pe_last_value := 120, nifty_ce_last_value := 100,
        pe_reset_gap_flag := 0, ce_reset_gap_flag := 1,
        tracker := tracker0 } := by
  constructor
  · unfold on_ticks_update handle_pe_trade pe_loop find_nifty_symbol_from_gap
      argmin_strike_diff pyRound pyTrunc check_sell_multiplier_breach
    norm_num [cfg4, cfgS, instFar, s5, List.filter]
  · unfold reset_reference_values
    norm_num [cfg4, cfgS]

/-- State with both references armed for the reset witness. -/
def sArm : State :=
  { nifty_pe_last_value := 120, nifty_ce_last_value := 60,
    pe_reset_gap_flag := 1, ce_reset_gap_flag := 1, tracker := tracker0 }

/-- C6: the PE reset re-anchors the reference to price + resetGap when the
armed flag is set and reference - price exceeds resetGap (symmetrically
for CE with price - reference and price - resetGap), and an armed flag is
never cleared by any engine operation (a full tick, whatever its outcome,
keeps a nonzero flag nonzero), so the reset can re-fire on every later
tick whose price satisfies the condition. -/
theorem claim_C6_theorem (cfg : Config) (env : Env) (s : State) (price : ℚ)
    (fuel : ℕ) :
    (s.pe_reset_gap_flag ≠ 0 →
      cfg.pe_reset_gap < s.nifty_pe_last_value - price →
      (reset_reference_values cfg s price).nifty_pe_last_value =
        price + cfg.pe_reset_gap) ∧
    (s.ce_reset_gap_flag ≠ 0 →
      cfg.ce_reset_gap < price - s.nifty_ce_last_value →
      (reset_reference_values cfg s price).nifty_ce_last_value =
        price - cfg.ce_reset_gap) ∧
    (s.pe_reset_gap_flag ≠ 0 →
      (stateOf (on_ticks_update cfg env s price fuel)).pe_reset_gap_flag ≠ 0) ∧
    (s.ce_reset_gap_flag ≠ 0 →
      (stateOf (on_ticks_update cfg env s price fuel)).ce_reset_gap_flag ≠ 0) := by
  exact ⟨reset_reference_values_pe_fires cfg s price,
    reset_reference_values_ce_fires cfg s price,
    (on_ticks_update_flags_mono cfg env s price fuel).1,
    (on_ticks_update_flags_mono cfg env s price fuel).2⟩

/-- Witness for C6 at price 90: armed PE reference 120 re-anchors to 95,
armed CE reference 60 re-anchors to 85, and both flags stay set across a
full tick. -/
theorem claim_C6_witness :
    (reset_reference_values cfgS sArm 90).nifty_pe_last_value = 95 ∧
    (reset_reference_values cfgS sArm 90).nifty_ce_last_value = 85 ∧
    (stateOf (on_ticks_update cfgS envFail sArm 90 2)).pe_reset_gap_flag ≠ 0 ∧
    (stateOf (on_ticks_update cfgS envFail sArm 90 2)).ce_reset_gap_flag ≠ 0 := by
  have h := claim_C6_theorem cfgS envFail sArm 90 2
  refine ⟨?_, ?_, h.2.2.1 (by decide), h.2.2.2 (by decide)⟩
  · rw [h.1 (by decide) (by norm_num [sArm, cfgS])]
    norm_num [cfgS]
  · rw [h.2.1 (by decide) (by norm_num [sArm, cfgS])]
    norm_num [cfgS]

/-- C7 counterexample.  The claim says that after a placement failure the
caller does not advance reset state for the decision.  In the code
pe_reset_gap_flag = 1 is assigned right after _place_order returns, with
no success check: with a broker whose five attempts all return a falsy
id, the tick ends with the ledger untouched (placement did fail and
nothing was recorded) but with the PE reset flag advanced from 0 to 1. -/
theorem claim_C7_counterexample :
    place_order (envFail.placeAttempt instNear.tradingsymbol) = none ∧
    s7.pe_reset_gap_flag = 0 ∧
    on_ticks_update cfg7 envFail s7 125 3 =
      .ok { nifty_pe_last_value := 120, nifty_ce_last_value := 100,
            pe_reset_gap_flag := 1, ce_reset_gap_flag := 0,
            tracker := tracker0 } := by
  refine ⟨place_order_go_allFail 0 5, rfl, ?_⟩
  unfold on_ticks_update handle_pe_trade handle_ce_trade pe_loop
    find_nifty_symbol_from_gap argmin_strike_diff pyRound pyTrunc
    check_sell_multiplier_breach strat_place_order place_order
    reset_reference_values
  norm_num [cfg7, cfgS, instNear, s7, envFail, List.filter,
    place_order_go_allFail]

/-- C7 amended: the broker place_order makes up to 5 attempts and returns
the id of the first attempt yielding a non-empty identifier; when all 5
attempts return an empty id it reports failure; on that failure the
caller records nothing in the ledger, but the selection loop still sets
the reset-armed flag for the side after the placement attempt, regardless
of its success. -/
theorem claim_C7_amended :
    (∀ attempt : ℕ → Except Unit String,
      (∀ i, i < 5 → attempt i = .ok "") → place_order attempt = none) ∧
    (∀ (attempt : ℕ → Except Unit String) (k : ℕ) (oid : String),
      k < 5 → oid ≠ "" → (∀ j, j < k → attempt j = .ok "") →
      attempt k = .ok oid → place_order attempt = some oid) ∧
    (∀ (cfg : Config) (env : Env) (s : State) (sym : String) (qty : ℤ),
      place_order (env.placeAttempt sym) = none →
      strat_place_order cfg env s sym qty = s) ∧
    (∀ (cfg : Config) (env : Env) (s : State) (price : ℚ) (qty : ℤ)
        (tg : ℚ) (fuel : ℕ) (instrument : Instrument),
      find_nifty_symbol_from_gap cfg "PE" price tg = .ok (some instrument) →
      ¬ env.quote (cfg.exchange ++ ":" ++ instrument.tradingsymbol) <
        cfg.min_price_to_sell →
      place_order (env.placeAttempt instrument.tradingsymbol) = none →
      pe_loop cfg env s price qty tg (fuel + 1) =
        .ok { s with pe_reset_gap_flag := 1 }) ∧
    (∀ (cfg : Config) (env : Env) (s : State) (price : ℚ) (qty : ℤ)
        (tg : ℚ) (fuel : ℕ) (instrument : Instrument),
      find_nifty_symbol_from_gap cfg "CE" price tg = .ok (some instrument) →
      ¬ env.quote (cfg.exchange ++ ":" ++ instrument.tradingsymbol) <
        cfg.min_price_to_sell →
      place_order (env.placeAttempt instrument.tradingsymbol) = none →
      ce_loop cfg env s price qty tg (fuel + 1) =
        .ok { s with ce_reset_gap_flag := 1 }) := by
  refine ⟨?_, ?_, ?_, ?_, ?_⟩
  · intro attempt h
    exact place_order_go_empty attempt 5 0
      (fun j hj => by simpa using h j hj)
  · intro attempt k oid hk hne hmiss hhit
    exact place_order_go_firstHit attempt oid hne k 0 5 hk
      (fun j hj => by simpa using hmiss j hj)
      (by simpa using hhit)
  · intro cfg env s sym qty h
    exact strat_place_order_fail cfg env s sym qty h
  · intro cfg env s price qty tg fuel instrument hsel hq hfail
    have hs := strat_place_order_fail cfg env s instrument.tradingsymbol qty hfail
    simp [pe_loop, hsel, hq, hs]
  · intro cfg env s price qty tg fuel instrument hsel hq hfail
    have hs := strat_place_order_fail cfg env s instrument.tradingsymbol qty hfail
    simp [ce_loop, hsel, hq, hs]

/-- Witness for C7 amended: an always-empty broker fails, a first-attempt
id is returned, a failed placement leaves the state unchanged, and both
selection loops still arm their reset flags over the failing broker. -/
theorem claim_C7_amended_witness :
    place_order (fun _ => .ok "") = none ∧
    place_order (fun _ => .ok "OID1") = some "OID1" ∧
    strat_place_order cfg7 envFail s7 "X" 50 = s7 ∧
    pe_loop cfg7 envFail s7 125 100 25 2 =
      .ok { s7 with pe_reset_gap_flag := 1 } ∧
    ce_loop cfg7ce envFail s7 125 100 25 2 =
      .ok { s7 with ce_reset_gap_flag := 1 } := by
  refine ⟨claim_C7_amended.1 _ (fun i _ => rfl),
    claim_C7_amended.2.1 _ 0 "OID1" (by norm_num) (by decide)
      (fun j hj => absurd hj (Nat.not_lt_zero j)) rfl,
    claim_C7_amended.2.2.1 cfg7 envFail s7 "X" 50 (place_order_go_allFail 0 5),
    claim_C7_amended.2.2.2.1 cfg7 envFail s7 125 100 25 1 instNear ?_ ?_
      (place_order_go_allFail 0 5),
    claim_C7_amended.2.2.2.2 cfg7ce envFail s7 125 100 25 1 instNearCE ?_ ?_
      (place_order_go_allFail 0 5)⟩
  · unfold find_nifty_symbol_from_gap argmin_strike_diff
    norm_num [cfg7, cfgS, instNear, List.filter]
  · norm_num [envFail, cfg7, cfgS]
  · have hne : ¬ ("CE" : String) = "PE" := by decide
    unfold find_nifty_symbol_from_gap argmin_strike_diff
    norm_num [cfg7ce, cfgS, instNearCE, List.filter, hne]
  · norm_num [envFail, cfg7ce, cfgS]

/-- C8 counterexample.  The claim says every mutating ledger call
persists the whole mapping synchronously before returning.  complete_order
performs no persistence at all: completing order "1" mutates the
in-memory completed list but leaves the persisted file and the save
counter untouched. -/
theorem claim_C8_counterexample :
    (complete_order (add_order tracker0 o1) "1").2.completed ≠
      (add_order tracker0 o1).completed ∧
    (complete_order (add_order tracker0 o1) "1").2.saves =
      (add_order tracker0 o1).saves ∧
    (complete_order (add_order tracker0 o1) "1").2.file =
      (add_order tracker0 o1).file := by
  refine ⟨?_, ?_, ?_⟩ <;>
    simp [complete_order, add_order, save_orders, dict_insert, bump_summary,
      tracker0, o1, List.lookup]

/-- C8 amended: add_order persists the full mapping synchronously by a
full-file rewrite before returning; complete_order mutates only in-memory
completion state (the orders mapping, the current order, the persisted
file and the save counter are all unchanged) and performs no persistence,
so a completion is never reflected in the persisted state. -/
theorem claim_C8_amended :
    (∀ (st : TrackerState) (od : Order), od.order_id ≠ "" →
      (add_order st od).file = (add_order st od).all_orders ∧
      (add_order st od).saves = st.saves + 1) ∧
    (∀ (st : TrackerState) (oid : String),
      (complete_order st oid).2.file = st.file ∧
      (complete_order st oid).2.saves = st.saves ∧
      (complete_order st oid).2.all_orders = st.all_orders ∧
      (complete_order st oid).2.current = st.current) := by
  constructor
  · intro st od h
    simp [add_order, save_orders, h]
  · intro st oid
    rcases hl : st.all_orders.lookup oid with _ | od
    · simp [complete_order, hl]
    · by_cases hc : oid ∈ st.completed <;>
        simp [complete_order, hl, hc]

/-- Witness for C8 amended: adding order "1" to a fresh tracker rewrites
the file and bumps the save counter; completing it writes nothing and
leaves the mapping and current order in place. -/
theorem claim_C8_amended_witness :
    ((add_order tracker0 o1).file = (add_order tracker0 o1).all_orders ∧
      (add_order tracker0 o1).saves = tracker0.saves + 1) ∧
    ((complete_order (add_order tracker0 o1) "1").2.file =
        (add_order tracker0 o1).file ∧
      (complete_order (add_order tracker0 o1) "1").2.saves =
        (add_order tracker0 o1).saves ∧
      (complete_order (add_order tracker0 o1) "1").2.all_orders =
        (add_order tracker0 o1).all_orders ∧
      (complete_order (add_order tracker0 o1) "1").2.current =
        (add_order tracker0 o1).current) :=
  ⟨claim_C8_amended.1 tracker0 o1 (by decide),
    claim_C8_amended.2 (add_order tracker0 o1) "1"⟩

/-- C9 counterexample.  The claim says persist-then-reload always yields
the same currentOrder.  Adding order "1" (timestamp 5) and then order "2"
(timestamp 3) leaves currentOrder = order "2" (last added), but the
reload scan recomputes currentOrder as order "1" (maximum timestamp), so
they differ. -/
theorem claim_C9_counterexample :
    (load_orders (save_orders (add_order (add_order tracker0 o1) o2)).file).2 =
      some o1 ∧
    (add_order (add_order tracker0 o1) o2).current = some o2 ∧
    o1 ≠ o2 := by
  refine ⟨?_, ?_, ?_⟩ <;>
    simp [load_orders, load_current, load_current_step, List.foldl,
      save_orders, add_order, dict_insert, tracker0, o1, o2]

lemma foldl_load_current_from_some (l : List (String × Order)) :
    ∀ b : Order,
    (List.foldl load_current_step (some b) l = some b ∧
      ∀ q ∈ l, q.2.timestamp ≤ b.timestamp) ∨
    (∃ l1 p l2, l = l1 ++ p :: l2 ∧
      List.foldl load_current_step (some b) l = some p.2 ∧
      b.timestamp < p.2.timestamp ∧
      (∀ q ∈ l1, q.2.timestamp < p.2.timestamp) ∧
      (∀ q ∈ l2, q.2.timestamp ≤ p.2.timestamp)) := by
  induction l with
  | nil =>
      intro b
      left
      exact ⟨rfl, by simp⟩
  | cons p0 tl ih =>
      intro b
      rw [List.foldl_cons, load_current_step_some]
      by_cases hbp : b.timestamp < p0.2.timestamp
      · rw [if_pos hbp]
        rcases ih p0.2 with ⟨hres, hall⟩ | ⟨l1, pm, l2, heq, hres, hlt, h1, h2⟩
        · right
          exact ⟨[], p0, tl, by simp, hres, hbp, by simp, hall⟩
        · right
          refine ⟨p0 :: l1, pm, l2, by rw [heq]; rfl, hres,
            lt_trans hbp hlt, ?_, h2⟩
          intro q hq
          rcases List.mem_cons.mp hq with rfl | hmem
          · exact hlt
          · exact h1 q hmem
      · rw [if_neg hbp]
        rcases ih b with ⟨hres, hall⟩ | ⟨l1, pm, l2, heq, hres, hlt, h1, h2⟩
        · left
          refine ⟨hres, ?_⟩
          intro q hq
          rcases List.mem_cons.mp hq with rfl | hmem
          · exact not_lt.mp hbp
          · exact hall q hmem
        · right
          refine ⟨p0 :: l1, pm, l2, by rw [heq]; rfl, hres, hlt, ?_, h2⟩
          intro q hq
          rcases List.mem_cons.mp hq with rfl | hmem
          · exact lt_of_le_of_lt (not_lt.mp hbp) hlt
          · exact h1 q hmem

lemma load_current_spec :
    load_current [] = none ∧
    ∀ l : List (String × Order), l ≠ [] →
      ∃ l1 p l2, l = l1 ++ p :: l2 ∧ load_current l = some p.2 ∧
        (∀ q ∈ l1, q.2.timestamp < p.2.timestamp) ∧
        (∀ q ∈ l2, q.2.timestamp ≤ p.2.timestamp) := by
  constructor
  · rfl
  · intro l hne
    rcases l with _ | ⟨p0, tl⟩
    · exact absurd rfl hne
    · unfold load_current
      rw [List.foldl_cons, load_current_step_none]
      rcases foldl_load_current_from_some tl p0.2 with
        ⟨hres, hall⟩ | ⟨l1, pm, l2, heq, hres, hlt, h1, h2⟩
      · exact ⟨[], p0, tl, by simp, hres, by simp, hall⟩
      · refine ⟨p0 :: l1, pm, l2, by rw [heq]; rfl, hres, ?_, h2⟩
        intro q hq
        rcases List.mem_cons.mp hq with rfl | hmem
        · exact hlt
        · exact h1 q hmem

/-- C9 amended: persisting then reloading yields the identical
orderId-to-order mapping for every ledger state; the reloaded
currentOrder is none iff the mapping is empty, and on a nonempty mapping
it is the first entry in insertion order attaining the maximum timestamp
(every earlier entry strictly smaller, every later entry no greater); it
equals the currentOrder held before persisting whenever that order has
the strictly greatest timestamp among the entries of the mapping. -/
theorem claim_C9_amended :
    (∀ st : TrackerState,
      (load_orders (save_orders st).file).1 = st.all_orders) ∧
    load_current [] = none ∧
    (∀ l : List (String × Order), l ≠ [] →
      ∃ l1 p l2, l = l1 ++ p :: l2 ∧ load_current l = some p.2 ∧
        (∀ q ∈ l1, q.2.timestamp < p.2.timestamp) ∧
        (∀ q ∈ l2, q.2.timestamp ≤ p.2.timestamp)) ∧
    (∀ (st : TrackerState) (c : Order),
      st.current = some c →
      (∃ p ∈ st.all_orders, p.2 = c) →
      (∀ p ∈ st.all_orders, p.2 = c ∨ p.2.timestamp < c.timestamp) →
      (load_orders (save_orders st).file).2 = st.current) := by
  refine ⟨fun st => rfl, load_current_spec.1, load_current_spec.2, ?_⟩
  intro st c hcur hmem hmax
  rw [hcur]
  show load_current st.all_orders = some c
  exact load_current_strict_max c st.all_orders hmem hmax

/-- Witness for C9 amended: the universal round-trip, the scan
characterization on a singleton mapping, and the currentOrder equality on
a one-order ledger. -/
theorem claim_C9_amended_witness :
    (load_orders (save_orders (add_order tracker0 o1)).file).1 =
      (add_order tracker0 o1).all_orders ∧
    (∃ l1 p l2, [("1", o1)] = l1 ++ p :: l2 ∧
      load_current [("1", o1)] = some p.2 ∧
      (∀ q ∈ l1, q.2.timestamp < p.2.timestamp) ∧
      (∀ q ∈ l2, q.2.timestamp ≤ p.2.timestamp)) ∧
    (load_orders (save_orders (add_order tracker0 o1)).file).2 =
      (add_order tracker0 o1).current := by
  refine ⟨claim_C9_amended.1 (add_order tracker0 o1),
    claim_C9_amended.2.2.1 [("1", o1)] (by simp),
    claim_C9_amended.2.2.2 (add_order tracker0 o1) o1 ?_ ?_ ?_⟩
  · simp [add_order, save_orders, dict_insert, tracker0, o1]
  · exact ⟨("1", o1), by simp [add_order, save_orders, dict_insert, tracker0, o1], rfl⟩
  · intro p hp
    left
    simp [add_order, save_orders, dict_insert, tracker0, o1] at hp
    rw [hp]
    rfl

/-- C10: complete_order returns false and changes nothing on an unknown
id; on a known id it returns true; completing the same known id twice
returns true both times, leaves exactly one occurrence of the id in the
completed list, and bumps the per-transaction-type counter only on the
first call. -/
theorem claim_C10_theorem (st : TrackerState) (oid : String) (od : Order) :
    (st.all_orders.lookup oid = none → complete_order st oid = (false, st)) ∧
    (st.all_orders.lookup oid = some od → (complete_order st oid).1 = true) ∧
    (st.all_orders.lookup oid = some od →
      st.completed.contains oid = false →
      ((complete_order (complete_order st oid).2 oid).1 = true ∧
        (complete_order (complete_order st oid).2 oid).2.completed.count oid
          = 1 ∧
        (complete_order (complete_order st oid).2 oid).2.summary =
          (complete_order st oid).2.summary ∧
        summary_count (complete_order st oid).2.summary od.transaction_type =
          summary_count st.summary od.transaction_type + 1)) := by
  refine ⟨fun hnone => ?_, fun hsome => ?_, fun hsome hc => ?_⟩
  · simp [complete_order, hnone]
  · by_cases hcont : oid ∈ st.completed <;>
      simp [complete_order, hsome, hcont]
  · have hnotmem : oid ∉ st.completed := by
      intro hmem
      have htrue : st.completed.contains oid = true :=
        List.elem_eq_true_of_mem hmem
      rw [htrue] at hc
      simp at hc
    have h1 : complete_order st oid =
        (true, { st with
          completed := st.completed ++ [oid]
          summary := bump_summary st.summary od.transaction_type }) := by
      simp [complete_order, hsome, hnotmem]
    have hmem2 : oid ∈ st.completed ++ [oid] :=
      List.mem_append_right st.completed (List.mem_cons_self oid [])
    have h2 : complete_order
        { st with
          completed := st.completed ++ [oid]
          summary := bump_summary st.summary od.transaction_type } oid =
        (true, { st with
          completed := st.completed ++ [oid]
          summary := bump_summary st.summary od.transaction_type }) := by
      simp [complete_order, hsome, hmem2]
    refine ⟨?_, ?_, ?_, ?_⟩
    · rw [h1, h2]
    · rw [h1, h2]
      show (st.completed ++ [oid]).count oid = 1
      rw [List.count_append, List.count_eq_zero.mpr hnotmem,
        List.count_singleton_self]
    · rw [h1, h2]
    · rw [h1]
      exact summary_count_bump st.summary od.transaction_type

/-- Witness for C10 on a one-order ledger: unknown id "0" fails and
changes nothing; completing "1" twice succeeds both times with one
occurrence in the completed list and a single SELL-counter bump. -/
theorem claim_C10_witness :
    complete_order (add_order tracker0 o1) "0" =
      (false, add_order tracker0 o1) ∧
    (complete_order
      (complete_order (add_order tracker0 o1) "1").2 "1").1 = true ∧
    (complete_order
      (complete_order (add_order tracker0 o1) "1").2 "1").2.completed.count "1"
        = 1 ∧
    summary_count (complete_order (add_order tracker0 o1) "1").2.summary
        "SELL" =
      summary_count (add_order tracker0 o1).summary "SELL" + 1 := by
  have hA := (claim_C10_theorem (add_order tracker0 o1) "0" o1).1
    (by simp [add_order, save_orders, dict_insert, tracker0, o1, List.lookup])
  have hB := (claim_C10_theorem (add_order tracker0 o1) "1" o1).2.2
    (by simp [add_order, save_orders, dict_insert, tracker0, o1, List.lookup])
    (by simp [add_order, save_orders, dict_insert, tracker0, o1])
  exact ⟨hA, hB.1, hB.2.1, hB.2.2.2⟩
